import Mathlib

/-
Shallow embedding of the el-toggl data-synchronization core:
the Toggl service (src/services/toggl/TogglService.ts), its wire-to-domain
mapping, and the booking reconciliation logic exercised by
src/components/create-entry/CreateEntry.test.tsx.

Modelling conventions:
- JS `Date` values are epoch milliseconds as `Nat`; `new Date(null)` is the
  epoch, i.e. `0`.
- A wire field that may be absent or null is `Option (Option Nat)`:
  `none` = key absent, `some none` = key present with value null,
  `some (some v)` = key present with value `v`.
- Remote I/O is passed in as an explicit argument (the parsed response body,
  or an error marker), and the process-wide stores are explicit state records
  threaded through each operation.
- A thrown JS exception is modelled by an `Option` result being `none`.
-/

/-- Domain `Client` from src/types: `{ id, name }`. -/
structure Client where
  id : Int
  name : String
deriving Repr, DecidableEq

/-- Domain `Workspace` from src/types: `{ id }`. -/
structure Workspace where
  id : Int
deriving Repr, DecidableEq

/-- Domain `Project` from src/types: `{ client?, color, id, name, workspace }`. -/
structure Project where
  client : Option Client
  color : String
  id : Int
  name : String
  workspace : Workspace
deriving Repr, DecidableEq

/-- Domain `TimeEntry` from src/types. `project` is `Option` because the
mapping layer leaves it undefined when the project id resolves to nothing;
`stop` is absent for a running entry. Timestamps are epoch milliseconds. -/
structure TimeEntry where
  description : String
  duration : Int
  id : Int
  project : Option Project
  start : Nat
  stop : Option Nat
deriving Repr, DecidableEq

/-- Wire-format `TogglProject` (fields used by `fetchProjects`). -/
structure TogglProject where
  client_id : Option Int
  color : String
  id : Int
  name : String
  workspace_id : Int
deriving Repr, DecidableEq

/-- Wire-format `TogglTimeEntry` (fields used by `mapTimeEntry`).
`stop` is doubly optional: the key may be absent, or present with a null
value (the remote marks running entries with `"stop": null`). -/
structure TogglTimeEntry where
  description : String
  duration : Int
  id : Int
  project_id : Option Int
  start : Nat
  stop : Option (Option Nat)
deriving Repr, DecidableEq

/-- Process-wide `TogglStore` state (the cached collections used by the
service; the store module itself is outside src/, its shape is taken from
the fields `TogglService` reads and writes). -/
structure TogglStoreState where
  clients : List Client
  projects : List Project
deriving Repr, DecidableEq

/-- Booking state (transient, UI-facing). Union of the fields the spec's
data model lists (`day`, `projectId`, `timeEntryDescription`, `timeEntryId`,
`timeStart`, `timeStop`) and the fields `fetchActiveTimeEntry` writes
(`day`, `description`, `start`, `entry`, `projectId`); the store module is
outside src/. -/
structure BookingState where
  day : Nat
  description : String
  start : String
  entry : Option TimeEntry
  projectId : Option Int
  timeEntryDescription : String
  timeEntryId : Option Int
  timeStart : String
  timeStop : Option String
deriving Repr, DecidableEq

/-- Semantics of JS `new Date(x)` for `x : string-timestamp | null`:
null coerces to `0` (the epoch); a real timestamp parses to itself. -/
def jsNewDate : Option Nat → Nat
  | none => 0
  | some t => t

/-- Modelled from the spec: `pad2` zero-pads a number below 100 to two
digits, the building block of the `HH:mm` rendering of `formatTime` (the
date service `src/services/date` is not under src/). -/
def pad2 (n : Nat) : String :=
  String.mk [Char.ofNat (48 + n / 10 % 10), Char.ofNat (48 + n % 10)]

/-- Modelled from the spec: `formatTime` renders a timestamp as a
fixed-format `HH:mm` time-of-day string (src/services/date is not under
src/). -/
def formatTime (t : Nat) : String :=
  pad2 (t / 3600000 % 24) ++ ":" ++ pad2 (t / 60000 % 60)

/-- Modelled from the spec: `formatDate` renders a timestamp as a
calendar-date-only string; modelled as the epoch day number, which is in
bijection with the date-only string (src/services/date is not under src/). -/
def formatDate (t : Nat) : Nat :=
  t / 86400000

/-- Milliseconds in one day, for `add(day, \x7b days: 1 \x7d)`. -/
def msPerDay : Nat := 86400000

/-- Numeric value of a decimal digit character. -/
def digitVal (c : Char) : Option Nat :=
  if 48 ≤ c.toNat ∧ c.toNat ≤ 57 then some (c.toNat - 48) else none

/-- Parse of a strict `HH:mm` time-of-day string: exactly two digit
characters, a colon, two digit characters, with hour < 24 and minute < 60. -/
def parseTimeOfDay (t : String) : Option (Nat × Nat) :=
  match t.data with
  | [h1, h2, c, m1, m2] =>
    if c = ':' then
      match digitVal h1, digitVal h2, digitVal m1, digitVal m2 with
      | some a, some b, some x, some y =>
        let hh := 10 * a + b
        let mm := 10 * x + y
        if hh < 24 ∧ mm < 60 then some (hh, mm) else none
      | _, _, _, _ => none
    else none
  | _ => none

/-- Canonical `HH:mm` rendering of an hour/minute pair. -/
def timeOfDayStr (h m : Nat) : String :=
  pad2 h ++ ":" ++ pad2 m

/-- Modelled from the spec: `combineDateWithTime(day, timeString)` produces
a timestamp from `day`'s calendar date and `timeString`'s time-of-day,
discarding `day`'s original time component (src/services/date is not under
src/). An unparsable time string yields `none`. -/
def combineDateWithTime (day : Nat) (t : String) : Option Nat :=
  (parseTimeOfDay t).map (fun hm => day / msPerDay * msPerDay + hm.1 * 3600000 + hm.2 * 60000)

/-- Rank used by the running-entries-last order: a stopped entry ranks 0, a
running entry (no `stop`) ranks 1. -/
def stopRank (e : TimeEntry) : Nat :=
  if e.stop = none then 1 else 0

/-- Modelled from the spec: `sortStartStopables` as a boolean `le`
comparator — a running entry sorts after all stopped entries; otherwise
order by start time ascending (the relative order of two running entries is
unspecified by the spec; modelled as start-ascending as well;
src/services/date is not under src/). -/
def sortStartStopables (a b : TimeEntry) : Bool :=
  decide (stopRank a < stopRank b ∨ (stopRank a = stopRank b ∧ a.start ≤ b.start))

/-- Mapping of one wire project against the cached client collection, as
inlined in `fetchProjects` (TogglService.ts lines 105-116): resolve
`client` by id-lookup, copy `color`, `id`, `name`, build `workspace` from
`workspace_id`. -/
def mapProject (clients : List Client) (project : TogglProject) : Project :=
  { client := clients.find? (fun client => some client.id == project.client_id)
    color := project.color
    id := project.id
    name := project.name
    workspace := { id := project.workspace_id } }

/-- Boolean name comparison standing in for
`p1.name.localeCompare(p2.name)` (locale-aware comparison modelled as the
total lexicographic order on `String`). -/
def projectNameLe (p1 p2 : Project) : Bool :=
  decide (p1.name ≤ p2.name)

/-- Embedding of `TogglService.fetchProjects` (TogglService.ts lines
98-127): the parsed response body is `data`; when it is non-null, map each
wire project against the currently cached clients, sort by name, and
overwrite the cached project collection; the returned value is always the
empty list. -/
def fetchProjects (workspaceId : Int) (data : Option (List TogglProject)) (s : TogglStoreState) :
    TogglStoreState × List Project :=
  let _ := workspaceId
  let clients := s.clients
  match data with
  | some d =>
    let projects := (d.map (mapProject clients)).mergeSort projectNameLe
    ({ s with projects := projects }, [])
  | none => (s, [])

/-- Embedding of `TogglService.mapTimeEntry` (TogglService.ts lines
182-195): resolve `project` against the cached projects, copy
`description`, `duration`, `id`, convert `start`; set `stop` exactly when
the wire record contains the `stop` key (`"stop" in entry`), converting its
value with `new Date` — a null value yields the epoch. -/
def mapTimeEntry (entry : TogglTimeEntry) (projects : List Project) : TimeEntry :=
  let project := projects.find? (fun project => some project.id == entry.project_id)
  let item : TimeEntry :=
    { description := entry.description
      duration := entry.duration
      id := entry.id
      project := project
      start := entry.start
      stop := none }
  match entry.stop with
  | none => item
  | some v => { item with stop := some (jsNewDate v) }

/-- Embedding of `TogglService.fetchActiveTimeEntry` (TogglService.ts lines
129-149): a null response returns null and leaves the booking state
untouched; otherwise the entry is mapped and the booking-state fields
`day`, `description`, `start`, `entry`, `projectId` are overwritten. The
write of `projectId` dereferences `entry.project.id`, which throws when the
project reference did not resolve — the thrown case is the outer `none`. -/
def fetchActiveTimeEntry (data : Option TogglTimeEntry) (toggl : TogglStoreState)
    (booking : BookingState) : Option (BookingState × Option TimeEntry) :=
  match data with
  | none => some (booking, none)
  | some d =>
    let entry := mapTimeEntry d toggl.projects
    match entry.project with
    | none => none
    | some p =>
      some ({ booking with
                day := entry.start
                description := entry.description
                start := formatTime entry.start
                entry := some entry
                projectId := some p.id },
            some entry)

/-- Query parameters of the `/me/time_entries` request issued by
`fetchTimeEntriesOfDay`. -/
structure DayQuery where
  start_date : Nat
  end_date : Nat
deriving Repr, DecidableEq

/-- Embedding of `TogglService.fetchTimeEntriesOfDay` (TogglService.ts
lines 156-169): query with `start_date = formatDate(day)` and
`end_date = formatDate(add(day, \x7b days: 1 \x7d))`, then map each wire entry
against the cached projects and sort with `sortStartStopables`. -/
def fetchTimeEntriesOfDay (day : Nat) (data : List TogglTimeEntry)
    (s : TogglStoreState) : DayQuery × List TimeEntry :=
  ({ start_date := formatDate day, end_date := formatDate (day + msPerDay) },
   (data.map (fun entry => mapTimeEntry entry s.projects)).mergeSort sortStartStopables)

/-- Result of a remote HTTP call: either the parsed body (axios throws on
non-2xx, so `err` covers both network errors and non-2xx responses), or an
error. -/
inductive HttpResult (α : Type) where
  | ok (data : α)
  | err
deriving Repr, DecidableEq

/-- Embedding of `TogglService.updateTimeEntry` (TogglService.ts lines
171-180): on success with a non-null body, map and return the entry; on a
null body, return null; on any failure the error is swallowed (`catch \x7b\x7d`)
and null is returned. No store is written in any branch. -/
def updateTimeEntry (_entry : TimeEntry) (response : HttpResult (Option TogglTimeEntry))
    (s : TogglStoreState) : TogglStoreState × Option TimeEntry :=
  match response with
  | .ok (some d) => (s, some (mapTimeEntry d s.projects))
  | .ok none => (s, none)
  | .err => (s, none)

/-- Remote call issued by the commit action of the create-entry form. The
update payload mirrors the object the test asserts `updateTimeEntry` is
called with: the booking state with `timeStart`/`timeStop` replaced by
`combineDateWithTime` results. -/
inductive RemoteCall where
  | stopCall (id : Int)
  | updateCall (day : Nat) (projectId : Option Int) (description : String)
      (entryId : Int) (tstart : Option Nat) (tstop : Option Nat)
deriving Repr, DecidableEq

/-- Modelled from the spec: the commit action of the booking reconciliation
logic (the `CreateEntry` component is not under src/; only its test is).
With a `timeEntryId` and no stop time (Stoppable) it issues exactly
`stopTimeEntry(timeEntryId)`; with both bounds set (Completable) it issues
exactly one `updateTimeEntry` with `start`/`stop` computed via
`combineDateWithTime` against the day and otherwise unchanged fields. -/
def commitBooking (s : BookingState) : List RemoteCall :=
  match s.timeEntryId with
  | none => []
  | some id =>
    match s.timeStop with
    | none => [RemoteCall.stopCall id]
    | some tstop =>
      [RemoteCall.updateCall s.day s.projectId s.timeEntryDescription id
        (combineDateWithTime s.day s.timeStart) (combineDateWithTime s.day tstop)]

/-- Validation flags on the start and stop time inputs. -/
structure FieldFlags where
  startInvalid : Bool
  stopInvalid : Bool
deriving Repr, DecidableEq

/-- Modelled from the spec: the input-boundary validation of the stop time
(the `CreateEntry` component is not under src/) — a stop time strictly
earlier than the start time is flagged invalid on the stop field; the start
field is never flagged by this rule. -/
def validateStopField (timeStart : String) (timeStop : Option String) : FieldFlags :=
  match timeStop with
  | none => ⟨false, false⟩
  | some ts =>
    match parseTimeOfDay timeStart, parseTimeOfDay ts with
    | some a, some b => ⟨false, decide (b.1 * 60 + b.2 < a.1 * 60 + a.2)⟩
    | _, _ => ⟨false, false⟩

/-- Modelled from the spec: the commit action is gated off while the stop
field is flagged invalid — no remote call is issued. -/
def commitGated (s : BookingState) : List RemoteCall :=
  if (validateStopField s.timeStart s.timeStop).stopInvalid then [] else commitBooking s

/-- Concrete client used by the witnesses, mirroring the test fixture. -/
def clientA : Client := { id := 1, name := "Client A" }

/-- Concrete project used by the witnesses, mirroring the test fixture. -/
def projectB : Project :=
  { client := some clientA, color := "#ffffff", id := 2, name := "Project B"
    workspace := { id := 3 } }

/-- Concrete store state used by the witnesses. -/
def store0 : TogglStoreState := { clients := [clientA], projects := [projectB] }

/-- Canonical `HH:mm` strings parse back to their hour/minute pair. -/
theorem parse_timeOfDayStr : ∀ h < 24, ∀ m < 60, parseTimeOfDay (timeOfDayStr h m) = some (h, m) := by
  set_option maxRecDepth 10000 in decide

/-- Transitivity of the boolean name order on projects. -/
theorem projectNameLe_trans : ∀ a b c : Project,
    projectNameLe a b → projectNameLe b c → projectNameLe a c := by
  intro a b c h1 h2
  simp only [projectNameLe, decide_eq_true_eq] at h1 h2 ⊢
  exact le_trans h1 h2

/-- Totality of the boolean name order on projects. -/
theorem projectNameLe_total : ∀ a b : Project, projectNameLe a b || projectNameLe b a := by
  intro a b
  simp only [projectNameLe, Bool.or_eq_true, decide_eq_true_eq]
  exact le_total a.name b.name

/-- Transitivity of the running-entries-last comparator. -/
theorem sortStartStopables_trans : ∀ a b c : TimeEntry,
    sortStartStopables a b → sortStartStopables b c → sortStartStopables a c := by
  intro a b c h1 h2
  simp only [sortStartStopables, decide_eq_true_eq] at h1 h2 ⊢
  omega

/-- Totality of the running-entries-last comparator. -/
theorem sortStartStopables_total : ∀ a b : TimeEntry,
    sortStartStopables a b || sortStartStopables b a := by
  intro a b
  simp only [sortStartStopables, Bool.or_eq_true, decide_eq_true_eq]
  omega

/-- C1: for every workspaceId and every remote response, `fetchProjects`
returns the empty list, even when the response held N > 0 projects and the
cached project collection was overwritten with exactly those N mapped
projects (a permutation of the mapped response, of the same length);
callers must read the cache, not the return value. -/
theorem fetchProjects_empty_return_full_cache (workspaceId : Int)
    (data : Option (List TogglProject)) (s : TogglStoreState) :
    (fetchProjects workspaceId data s).2 = [] ∧
    ∀ ps, data = some ps →
      ((fetchProjects workspaceId data s).1.projects.Perm (ps.map (mapProject s.clients)) ∧
        (fetchProjects workspaceId data s).1.projects.length = ps.length) := by
  constructor
  · cases data <;> rfl
  · rintro ps rfl
    have hperm : (fetchProjects workspaceId (some ps) s).1.projects.Perm
        (ps.map (mapProject s.clients)) := by
      simp only [fetchProjects]
      exact List.mergeSort_perm _ _
    refine ⟨hperm, ?_⟩
    simpa using hperm.length_eq

/-- Wire project used by the C1 witness. -/
def wireProjectB : TogglProject :=
  { client_id := some 1, color := "#ffffff", id := 2, name := "Project B"
    workspace_id := 3 }

/-- C1 witness: with one project in the response, the return value is empty
while the cache holds exactly one project. -/
theorem fetchProjects_empty_return_full_cache_witness :
    (fetchProjects 3 (some [wireProjectB]) store0).2 = [] ∧
    (fetchProjects 3 (some [wireProjectB]) store0).1.projects.length = 1 :=
  ⟨(fetchProjects_empty_return_full_cache 3 (some [wireProjectB]) store0).1,
    ((fetchProjects_empty_return_full_cache 3 (some [wireProjectB]) store0).2 _ rfl).2⟩

/-- Wire record with the `stop` key present but carrying a null value, as
the remote sends for a running entry. -/
def wireNullStop : TogglTimeEntry :=
  { description := "Running Entry 1", duration := -1, id := 1234
    project_id := some 2, start := 1000, stop := some none }

/-- C2 counterexample: a wire record whose `stop` key is present with a
null value still gets a populated `stop` (the epoch, from `new Date(null)`)
in the mapped domain entry, contradicting the claim that a null `stop`
value must leave the domain `stop` unset. -/
theorem mapTimeEntry_null_stop_counterexample :
    wireNullStop.stop = some none ∧
    (mapTimeEntry wireNullStop []).stop = some 0 ∧
    (mapTimeEntry wireNullStop []).stop ≠ none := by
  refine ⟨rfl, rfl, ?_⟩
  simp [mapTimeEntry, wireNullStop, jsNewDate]

/-- C2 amended: the mapped entry's `stop` is set iff the wire record
contains the `stop` KEY, regardless of its value — `"stop" in entry`
governs; a present-but-null value yields the epoch timestamp via
`new Date(null)`, and only key absence leaves `stop` unset. -/
theorem mapTimeEntry_stop_key_presence (entry : TogglTimeEntry) (projects : List Project) :
    (mapTimeEntry entry projects).stop = entry.stop.map jsNewDate ∧
    ((mapTimeEntry entry projects).stop = none ↔ entry.stop = none) := by
  cases h : entry.stop <;> simp [mapTimeEntry, h]

/-- C3: after `fetchProjects` completes with non-null data, the cached
project collection is sorted ascending by project name (locale-aware
`localeCompare` modelled as the total lexicographic order on names), for
every input ordering. -/
theorem fetchProjects_cache_sorted_by_name (workspaceId : Int) (ps : List TogglProject)
    (s : TogglStoreState) :
    ((fetchProjects workspaceId (some ps) s).1.projects).Pairwise
      (fun p1 p2 => p1.name ≤ p2.name) := by
  have h := List.sorted_mergeSort projectNameLe_trans projectNameLe_total
    (ps.map (mapProject s.clients))
  simp only [fetchProjects]
  exact h.imp (fun hab => by simpa [projectNameLe] using hab)

/-- C5: any failure of `updateTimeEntry` (network error or non-2xx, both of
which surface as a thrown axios error) is swallowed by the `catch` block:
the call returns null and the cached state is unchanged. -/
theorem updateTimeEntry_failure_returns_null (entry : TimeEntry) (s : TogglStoreState) :
    updateTimeEntry entry HttpResult.err s = (s, none) := rfl

/-- Booking state of the test fixture in its Stoppable shape: running entry
1234, edited start "09:00", no stop set. -/
def bookingStoppable : BookingState :=
  { day := 1736935200123, description := "Running Entry 1", start := "08:00"
    entry := none, projectId := some 2, timeEntryDescription := "Running Entry 1"
    timeEntryId := some 1234, timeStart := "09:00", timeStop := none }

/-- Booking state of the test fixture in its Completable shape: the same
entry with stop "10:00" also set. -/
def bookingCompletable : BookingState :=
  { bookingStoppable with timeStop := some "10:00" }

/-- C4: with a `timeEntryId`, a start time and no stop time (Stoppable),
commit issues exactly one `stopTimeEntry(timeEntryId)` call and no
`updateTimeEntry` call; with both bounds set (Completable), commit issues
exactly one `updateTimeEntry` call whose start and stop are
`combineDateWithTime` of the day with the edited times, with unchanged
description and project. -/
theorem commitBooking_stoppable_completable (s : BookingState) (id : Int) :
    (s.timeEntryId = some id → s.timeStop = none →
      commitBooking s = [RemoteCall.stopCall id]) ∧
    (∀ tstop, s.timeEntryId = some id → s.timeStop = some tstop →
      commitBooking s = [RemoteCall.updateCall s.day s.projectId s.timeEntryDescription id
        (combineDateWithTime s.day s.timeStart) (combineDateWithTime s.day tstop)]) := by
  constructor
  · intro h1 h2
    simp [commitBooking, h1, h2]
  · intro tstop h1 h2
    simp [commitBooking, h1, h2]

/-- C4 witness: the Stoppable fixture commits to exactly one stop call for
entry 1234; the Completable fixture commits to exactly one update call with
the combined start and stop and unchanged description and project. -/
theorem commitBooking_stoppable_completable_witness :
    commitBooking bookingStoppable = [RemoteCall.stopCall 1234] ∧
    commitBooking bookingCompletable =
      [RemoteCall.updateCall bookingCompletable.day (some 2) "Running Entry 1" 1234
        (combineDateWithTime bookingCompletable.day "09:00")
        (combineDateWithTime bookingCompletable.day "10:00")] :=
  ⟨(commitBooking_stoppable_completable bookingStoppable 1234).1 rfl rfl,
    (commitBooking_stoppable_completable bookingCompletable 1234).2 "10:00" rfl rfl⟩

/-- C6: when the remote reports no running entry, `fetchActiveTimeEntry`
returns null and leaves the booking state untouched; when one exists (and
its project resolves), it overwrites exactly the booking-state fields
`day`, `description`, `start`, `entry`, `projectId` — the structure-update
form makes every other field, e.g. `timeStop`, provably unchanged. -/
theorem fetchActiveTimeEntry_writes_exactly_booking_fields (toggl : TogglStoreState)
    (booking : BookingState) :
    fetchActiveTimeEntry none toggl booking = some (booking, none) ∧
    ∀ d p, (mapTimeEntry d toggl.projects).project = some p →
      fetchActiveTimeEntry (some d) toggl booking =
        some ({ booking with
                  day := (mapTimeEntry d toggl.projects).start
                  description := (mapTimeEntry d toggl.projects).description
                  start := formatTime (mapTimeEntry d toggl.projects).start
                  entry := some (mapTimeEntry d toggl.projects)
                  projectId := some p.id },
              some (mapTimeEntry d toggl.projects)) := by
  refine ⟨rfl, ?_⟩
  intro d p hp
  simp [fetchActiveTimeEntry, hp]

/-- Wire record of a running entry (no `stop` key) for project 2, as in the
test fixture. -/
def wireRunning : TogglTimeEntry :=
  { description := "Running Entry 1", duration := -1, id := 1234
    project_id := some 2, start := 32400000, stop := none }

/-- Booking state with only an unrelated stop time set, to observe the
frame condition. -/
def bookingIdle : BookingState :=
  { day := 0, description := "", start := "", entry := none, projectId := none
    timeEntryDescription := "", timeEntryId := none, timeStart := ""
    timeStop := some "10:00" }

/-- C6 witness: fetching the running fixture entry against the fixture
store rewrites the five transient fields and keeps `timeStop`. -/
theorem fetchActiveTimeEntry_writes_exactly_booking_fields_witness :
    fetchActiveTimeEntry (some wireRunning) store0 bookingIdle =
      some ({ bookingIdle with
                day := (mapTimeEntry wireRunning store0.projects).start
                description := (mapTimeEntry wireRunning store0.projects).description
                start := formatTime (mapTimeEntry wireRunning store0.projects).start
                entry := some (mapTimeEntry wireRunning store0.projects)
                projectId := some projectB.id },
            some (mapTimeEntry wireRunning store0.projects)) :=
  (fetchActiveTimeEntry_writes_exactly_booking_fields store0 bookingIdle).2
    wireRunning projectB rfl

/-- C8: a stop time strictly earlier than the start time flags the stop
field invalid, leaves the start field unflagged, and gates the commit
action off so no remote call is issued. -/
theorem stop_before_start_flags_and_gates (s : BookingState) (ts : String) (a b : Nat × Nat)
    (h1 : parseTimeOfDay s.timeStart = some a) (h2 : s.timeStop = some ts)
    (h3 : parseTimeOfDay ts = some b) (h4 : b.1 * 60 + b.2 < a.1 * 60 + a.2) :
    (validateStopField s.timeStart s.timeStop).stopInvalid = true ∧
    (validateStopField s.timeStart s.timeStop).startInvalid = false ∧
    commitGated s = [] := by
  have hv : validateStopField s.timeStart s.timeStop = ⟨false, true⟩ := by
    simp [validateStopField, h1, h2, h3, h4]
  refine ⟨by rw [hv], by rw [hv], ?_⟩
  simp [commitGated, hv]

/-- Booking state of the validation scenario: start "09:00", stop "08:59". -/
def bookingInvalidStop : BookingState :=
  { bookingStoppable with timeStop := some "08:59" }

/-- C8 witness: start "09:00" with stop "08:59" flags only the stop field
and commits nothing. -/
theorem stop_before_start_flags_and_gates_witness :
    (validateStopField bookingInvalidStop.timeStart bookingInvalidStop.timeStop).stopInvalid = true ∧
    (validateStopField bookingInvalidStop.timeStart bookingInvalidStop.timeStop).startInvalid = false ∧
    commitGated bookingInvalidStop = [] :=
  stop_before_start_flags_and_gates bookingInvalidStop "08:59" (9, 0) (8, 59)
    (by decide) rfl (by decide) (by decide)

/-- C10: when the running entry's `project_id` resolves to no cached
project, the `entry.project.id` dereference in `fetchActiveTimeEntry`
throws (the `none` result); the throw is unreachable exactly when the
lookup succeeds. -/
theorem fetchActiveTimeEntry_throws_on_unresolved_project (toggl : TogglStoreState)
    (booking : BookingState) (d : TogglTimeEntry) :
    (toggl.projects.find? (fun q => some q.id == d.project_id) = none →
      fetchActiveTimeEntry (some d) toggl booking = none) ∧
    (∀ p, toggl.projects.find? (fun q => some q.id == d.project_id) = some p →
      (fetchActiveTimeEntry (some d) toggl booking).isSome = true) := by
  constructor
  · intro hfind
    have hp : (mapTimeEntry d toggl.projects).project = none := by
      cases h : d.stop <;> simp [mapTimeEntry, h, hfind]
    simp [fetchActiveTimeEntry, hp]
  · intro p hfind
    have hp : (mapTimeEntry d toggl.projects).project = some p := by
      cases h : d.stop <;> simp [mapTimeEntry, h, hfind]
    simp [fetchActiveTimeEntry, hp]

/-- Store with an empty project cache, for the throw case. -/
def emptyStore : TogglStoreState := { clients := [], projects := [] }

/-- C10 witness: the fixture running entry throws against an empty project
cache and succeeds against the cache holding its project. -/
theorem fetchActiveTimeEntry_throws_on_unresolved_project_witness :
    fetchActiveTimeEntry (some wireRunning) emptyStore bookingIdle = none ∧
    (fetchActiveTimeEntry (some wireRunning) store0 bookingIdle).isSome = true :=
  ⟨(fetchActiveTimeEntry_throws_on_unresolved_project emptyStore bookingIdle wireRunning).1 rfl,
    (fetchActiveTimeEntry_throws_on_unresolved_project store0 bookingIdle wireRunning).2
      projectB rfl⟩

/-- C7: `fetchTimeEntriesOfDay(day)` queries the remote with
`start_date = formatDate(day)` and `end_date = formatDate(day + one day)` —
which is the date of `day` plus one — and returns the mapped entries (a
permutation of the map) sorted start-ascending with running (no-stop)
entries ordered last, per the §4.3 comparison rule. -/
theorem fetchTimeEntriesOfDay_query_and_sorted (day : Nat) (data : List TogglTimeEntry)
    (s : TogglStoreState) :
    (fetchTimeEntriesOfDay day data s).1 =
      { start_date := formatDate day, end_date := formatDate (day + msPerDay) } ∧
    (fetchTimeEntriesOfDay day data s).1.end_date = formatDate day + 1 ∧
    ((fetchTimeEntriesOfDay day data s).2).Perm
      (data.map (fun entry => mapTimeEntry entry s.projects)) ∧
    ((fetchTimeEntriesOfDay day data s).2).Pairwise
      (fun a b => stopRank a < stopRank b ∨ (stopRank a = stopRank b ∧ a.start ≤ b.start)) := by
  refine ⟨rfl, ?_, ?_, ?_⟩
  · show formatDate (day + msPerDay) = formatDate day + 1
    simp only [formatDate, msPerDay]
    omega
  · exact List.mergeSort_perm _ _
  · have h := List.sorted_mergeSort sortStartStopables_trans sortStartStopables_total
      (data.map (fun entry => mapTimeEntry entry s.projects))
    exact h.imp (fun hab => by simpa [sortStartStopables] using hab)

/-- Digit characters recovered from a successful `digitVal`. -/
theorem digitVal_eq (c : Char) (a : Nat) (h : digitVal c = some a) :
    48 ≤ c.toNat ∧ c.toNat = 48 + a ∧ a ≤ 9 := by
  simp only [digitVal] at h
  split at h
  · rename_i hc
    cases h
    omega
  · cases h

/-- Expansion of `timeOfDayStr` into its five characters. -/
theorem timeOfDayStr_eq_mk (h m : Nat) :
    timeOfDayStr h m = String.mk [Char.ofNat (48 + h / 10 % 10), Char.ofNat (48 + h % 10), ':',
      Char.ofNat (48 + m / 10 % 10), Char.ofNat (48 + m % 10)] := rfl

/-- Every string accepted by `parseTimeOfDay` is the canonical `HH:mm`
rendering of its hour/minute pair, with in-range hour and minute. -/
theorem parse_inverse (t : String) (hm : Nat × Nat) (hp : parseTimeOfDay t = some hm) :
    timeOfDayStr hm.1 hm.2 = t ∧ hm.1 < 24 ∧ hm.2 < 60 := by
  obtain ⟨data⟩ := t
  match data with
  | [] => cases hp
  | [c1] => cases hp
  | [c1, c2] => cases hp
  | [c1, c2, c3] => cases hp
  | [c1, c2, c3, c4] => cases hp
  | c1 :: c2 :: c3 :: c4 :: c5 :: c6 :: rest => cases hp
  | [c1, c2, c3, c4, c5] =>
    simp only [parseTimeOfDay] at hp
    split at hp
    · rename_i hc3
      subst hc3
      rcases hd1 : digitVal c1 with _ | a <;> rw [hd1] at hp
      case none => cases hp
      rcases hd2 : digitVal c2 with _ | b <;> rw [hd2] at hp
      case none => cases hp
      rcases hd4 : digitVal c4 with _ | x <;> rw [hd4] at hp
      case none => cases hp
      rcases hd5 : digitVal c5 with _ | y <;> rw [hd5] at hp
      case none => cases hp
      simp only at hp
      split at hp
      · rename_i hlt
        cases hp
        obtain ⟨e1a, e1b, e1c⟩ := digitVal_eq c1 a hd1
        obtain ⟨e2a, e2b, e2c⟩ := digitVal_eq c2 b hd2
        obtain ⟨e4a, e4b, e4c⟩ := digitVal_eq c4 x hd4
        obtain ⟨e5a, e5b, e5c⟩ := digitVal_eq c5 y hd5
        refine ⟨?_, hlt.1, hlt.2⟩
        rw [timeOfDayStr_eq_mk]
        have g1 : 48 + (10 * a + b) / 10 % 10 = c1.toNat := by omega
        have g2 : 48 + (10 * a + b) % 10 = c2.toNat := by omega
        have g4 : 48 + (10 * x + y) / 10 % 10 = c4.toNat := by omega
        have g5 : 48 + (10 * x + y) % 10 = c5.toNat := by omega
        rw [g1, g2, g4, g5, Char.ofNat_toNat, Char.ofNat_toNat, Char.ofNat_toNat,
          Char.ofNat_toNat]
      · cases hp
    · cases hp

/-- C9: for every day value and every valid `HH:mm` time-of-day string `t`,
`combineDateWithTime(day, t)` yields a timestamp that carries `day`'s
calendar date and `t`'s time-of-day — discarding `day`'s own time
component — and `formatTime` on it recovers `t` exactly (round-trip law). -/
theorem combineDateWithTime_formatTime_roundtrip (day : Nat) (t : String) (hm : Nat × Nat)
    (hvalid : parseTimeOfDay t = some hm) :
    ∃ d, combineDateWithTime day t = some d ∧
      formatTime d = t ∧
      d / msPerDay = day / msPerDay ∧
      d % msPerDay = hm.1 * 3600000 + hm.2 * 60000 := by
  obtain ⟨hts, hh, hmm⟩ := parse_inverse t hm hvalid
  refine ⟨day / msPerDay * msPerDay + hm.1 * 3600000 + hm.2 * 60000, ?_, ?_, ?_, ?_⟩
  · simp [combineDateWithTime, hvalid]
  · have e1 : (day / msPerDay * msPerDay + hm.1 * 3600000 + hm.2 * 60000) / 3600000 % 24
        = hm.1 := by
      simp only [msPerDay]
      omega
    have e2 : (day / msPerDay * msPerDay + hm.1 * 3600000 + hm.2 * 60000) / 60000 % 60
        = hm.2 := by
      simp only [msPerDay]
      omega
    simp only [formatTime]
    rw [e1, e2]
    exact hts
  · simp only [msPerDay]
    omega
  · simp only [msPerDay]
    omega

/-- C9 witness: combining an arbitrary concrete afternoon timestamp with
"09:00" and formatting the result returns "09:00", on the same calendar
day. -/
theorem combineDateWithTime_formatTime_roundtrip_witness :
    ∃ d, combineDateWithTime 1736935200123 "09:00" = some d ∧
      formatTime d = "09:00" ∧
      d / msPerDay = 1736935200123 / msPerDay ∧
      d % msPerDay = 9 * 3600000 + 0 * 60000 :=
  combineDateWithTime_formatTime_roundtrip 1736935200123 "09:00" (9, 0) (by decide)
